import Mathlib

/-!
# Verification of the pricing guideline engine

Shallow embedding of the pricing guideline engine (`src/index.js`, final
variant) in Lean 4, together with theorems settling the specification
claims.  JavaScript numbers are modelled as rationals (the deal attributes
and clause literals arrive as JSON decimal literals); `undefined`/`null`
deal attributes are modelled as `Option.none`.
-/

namespace PricingEngine

/-- A JavaScript primitive value as it occurs in deal attributes and clause
literals: a JSON number (modelled as a rational) or a string. -/
inductive JSValue where
  | num (q : ℚ)
  | str (s : String)
  deriving DecidableEq, Repr

/-- The whitespace JavaScript `trim` strips (the ASCII members of the
`WhiteSpace`/`LineTerminator` productions). -/
def jsWhitespace (c : Char) : Bool :=
  c = ' ' || c = '\t' || c = '\n' || c = '\r' || c = '\x0b' || c = '\x0c'

/-- JavaScript `s.trim()`: drop leading and trailing whitespace. -/
def jsTrim (s : String) : String :=
  String.mk (((s.data.dropWhile jsWhitespace).reverse.dropWhile jsWhitespace).reverse)

/-- JavaScript `s.toLowerCase()` on the ASCII strings this engine handles. -/
def jsToLower (s : String) : String :=
  String.mk (s.data.map Char.toLower)

/-- JavaScript `s.toUpperCase()` on the ASCII strings this engine handles. -/
def jsToUpper (s : String) : String :=
  String.mk (s.data.map Char.toUpper)

/-- Numeric value of a list of decimal digits (most significant first). -/
def digitsVal (cs : List Char) : Nat :=
  cs.foldl (fun n c => 10 * n + (c.toNat - 48)) 0

/-- Parse an unsigned decimal literal (`"123"`, `"123.45"`, `".5"`, `"5."`)
as a rational; `none` for anything else.  Models the decimal-literal part of
JavaScript string-to-number conversion (exponent, hexadecimal and `Infinity`
forms are not produced by this engine's data and are mapped to `none`). -/
def parseDecimal (cs : List Char) : Option ℚ :=
  match cs.span (fun c => c ≠ '.') with
  | (ip, []) =>
    if ip.isEmpty then none
    else if ip.all Char.isDigit then some (mkRat (digitsVal ip) 1) else none
  | (ip, _ :: fp) =>
    if fp.contains '.' then none
    else if ip.isEmpty && fp.isEmpty then none
    else if ip.all Char.isDigit && fp.all Char.isDigit then
      some (mkRat (digitsVal ip * 10 ^ fp.length + digitsVal fp) (10 ^ fp.length))
    else none

/-- JavaScript `ToNumber` on a string: trim, empty string is `0`, optional
sign followed by a decimal literal; `none` models `NaN`. -/
def jsStringToNumber (s : String) : Option ℚ :=
  match (jsTrim s).data with
  | [] => some 0
  | '-' :: rest => (parseDecimal rest).map Neg.neg
  | '+' :: rest => parseDecimal rest
  | cs => parseDecimal cs

/-- JavaScript `ToNumber` on a primitive value; `none` models `NaN`. -/
def jsToNumber : JSValue → Option ℚ
  | .num q => some q
  | .str s => jsStringToNumber s

/-- JavaScript strict equality `===` on primitives: values of different
types are never strictly equal; no numeric coercion happens. -/
def jsStrictEq : JSValue → JSValue → Bool
  | .num a, .num b => a == b
  | .str a, .str b => a == b
  | _, _ => false

/-- Lexicographic order on character lists, by code point — the order
JavaScript uses to compare two strings. -/
def charListLt : List Char → List Char → Bool
  | [], [] => false
  | [], _ :: _ => true
  | _ :: _, [] => false
  | a :: as, b :: bs =>
    if a < b then true
    else if b < a then false
    else charListLt as bs

/-- JavaScript abstract relational comparison (the semantics of `<`): two
strings compare lexicographically; otherwise both operands are converted to
numbers, and the result is undefined (`none`) when a conversion yields
`NaN`. -/
def jsRelational (a b : JSValue) : Option Bool :=
  match a, b with
  | .str s, .str t => some (charListLt s.data t.data)
  | _, _ =>
    match jsToNumber a, jsToNumber b with
    | some x, some y => some (decide (x < y))
    | _, _ => none

/-- JavaScript `a < b`: undefined relational result counts as `false`. -/
def jsLt (a b : JSValue) : Bool := (jsRelational a b).getD false

/-- JavaScript `a > b` is the relational comparison `b < a`. -/
def jsGt (a b : JSValue) : Bool := (jsRelational b a).getD false

/-- JavaScript `a <= b`: the negation of `b < a`, except that an undefined
relational result again gives `false`. -/
def jsLe (a b : JSValue) : Bool :=
  match jsRelational b a with
  | some r => !r
  | none => false

/-- JavaScript `a >= b`: the negation of `a < b`, undefined gives `false`. -/
def jsGe (a b : JSValue) : Bool :=
  match jsRelational a b with
  | some r => !r
  | none => false

/-- A comparison clause, as stored in a guideline's rule JSON:
`{ field, operator, value }`. -/
structure Clause where
  field : String
  operator : String
  value : JSValue
  deriving DecidableEq, Repr

/-- The normalization step of `evaluateCondition` (src/index.js:274-278):
a string operand is trimmed and lower-cased, any other operand is kept. -/
def normalizeVal : JSValue → JSValue
  | .str s => .str (jsToLower (jsTrim s))
  | v => v

/-- The `switch (cond.operator)` of `evaluateCondition`
(src/index.js:281-302): the six recognized comparison operators, every
other operator falling to the `default: result = false` branch. -/
def applyOp (op : String) (left right : JSValue) : Bool :=
  if op = "=" then jsStrictEq left right
  else if op = "!=" then !jsStrictEq left right
  else if op = "<" then jsLt left right
  else if op = "<=" then jsLe left right
  else if op = ">" then jsGt left right
  else if op = ">=" then jsGe left right
  else false

/-- `evaluateCondition(cond, deal)` (src/index.js:267-310).  The deal is the
field-to-value mapping handed in by the caller; `deal cond.field = none`
models the JavaScript `val == null` test (an absent or `null` attribute),
which returns `false` before any comparison. -/
def evaluateCondition (cond : Clause) (deal : String → Option JSValue) : Bool :=
  match deal cond.field with
  | none => false
  | some val =>
    let left := normalizeVal val
    let right := normalizeVal cond.value
    applyOp cond.operator left right

/-- Left-pad a digit string with zeros to width `k`. -/
def padZeros (s : String) (k : Nat) : String :=
  String.mk (List.replicate (k - s.length) '0') ++ s

/-- Insert thousands separators (commas) into a digit string, grouping by
three from the right. -/
def groupDigits (s : String) : String :=
  String.mk (((s.data.reverse.toChunks 3).intersperse [',']).flatten.reverse)

/-- Smallest `k ≤ 30` with `d ∣ 10 ^ k`, when one exists: the number of
decimal digits needed to write a fraction with reduced denominator `d`
exactly. -/
def pow10Exp (d : Nat) : Option Nat :=
  (List.range 31).find? (fun k => 10 ^ k % d = 0)

/-- JavaScript number-to-string conversion (template-literal interpolation)
for the terminating-decimal rationals this engine handles; a rational whose
decimal expansion does not terminate (never produced by JSON inputs) is
rendered as a fraction. -/
def numToString (q : ℚ) : String :=
  let sign := if q < 0 then "-" else ""
  match pow10Exp q.den with
  | some k =>
    if k = 0 then sign ++ toString q.num.natAbs
    else
      let scaled : Nat := q.num.natAbs * (10 ^ k / q.den)
      sign ++ toString (scaled / 10 ^ k) ++ "." ++ padZeros (toString (scaled % 10 ^ k)) k
  | none => sign ++ toString q.num.natAbs ++ "/" ++ toString q.den

/-- JavaScript `String(v)` / template-literal interpolation of a value. -/
def jsValueToString : JSValue → String
  | .num q => numToString q
  | .str s => s

/-- `q * 10 ^ k`, computed on the numerator so that it evaluates by kernel
reduction; `mulPow10_eq_mul` below checks it against the field product. -/
def mulPow10 (q : ℚ) (k : Nat) : ℚ :=
  mkRat (q.num * 10 ^ k) q.den

/-- `round q` (nearest integer, ties toward the larger candidate — the
rounding `toFixed` prescribes), computed by integer floor division;
`roundHalfUp_eq_round` below checks it against Mathlib's `round`. -/
def roundHalfUp (q : ℚ) : ℤ :=
  (2 * q.num + (q.den : ℤ)) / (2 * (q.den : ℤ))

/-- Validation: `mulPow10` is multiplication by the power of ten. -/
theorem mulPow10_eq_mul (q : ℚ) (k : Nat) : mulPow10 q k = q * 10 ^ k := by
  rw [mulPow10, Rat.mkRat_eq_div]
  conv_rhs => rw [← Rat.num_div_den q]
  push_cast
  ring

/-- Validation: `roundHalfUp` agrees with Mathlib's `round`. -/
theorem roundHalfUp_eq_round (q : ℚ) : roundHalfUp q = round q := by
  have hden : ((q.den : ℚ)) ≠ 0 := by
    exact_mod_cast q.den_nz
  have key : q + 1 / 2 = (((2 * q.num + (q.den : ℤ) : ℤ) : ℚ)) / (((2 * q.den : ℕ) : ℚ)) := by
    conv_lhs => rw [← Rat.num_div_den q]
    push_cast
    field_simp
    ring
  rw [round_eq, key, Rat.floor_intCast_div_natCast, roundHalfUp]
  congr 1

/-- `v.toLocaleString()` (en-US default): for a number, round to at most
three fraction digits and group the integer part with commas; for a string,
the string itself. -/
def jsToLocaleString : JSValue → String
  | .str s => s
  | .num q =>
    let a := if q < 0 then -q else q
    let n : Nat := (roundHalfUp (mulPow10 a 3)).toNat
    let fpStr := String.mk ((padZeros (toString (n % 1000)) 3).data.reverse.dropWhile (· = '0')).reverse
    (if q < 0 then "-" else "") ++ groupDigits (toString (n / 1000)) ++
      (if fpStr = "" then "" else "." ++ fpStr)

/-- `x.toFixed(2)`: two fraction digits, rounding half toward the larger
candidate as `Number.prototype.toFixed` prescribes; `NaN` prints as
`"NaN"`. -/
def toFixed2 : Option ℚ → String
  | none => "NaN"
  | some q =>
    let n : ℤ := roundHalfUp (mulPow10 q 2)
    (if n < 0 then "-" else "") ++ toString (n.natAbs / 100) ++ "." ++
      padZeros (toString (n.natAbs % 100)) 2

/-- JavaScript `v * 100`: a string operand is converted to a number first;
`none` models `NaN`. -/
def jsMul100 (v : JSValue) : Option ℚ :=
  (jsToNumber v).map (fun q => mulPow10 q 2)

/-- The parsed `Rule_JSON__c` payload of a guideline: `conditions` decide
whether the guideline applies, `requirements` must then hold.  An absent
sequence is modelled as `[]`, exactly as the destructuring defaults
`const { conditions = [], requirements = [] } = rule.json || {}` make the
two cases indistinguishable in the code. -/
structure RuleJson where
  conditions : List Clause := []
  requirements : List Clause := []
  deriving DecidableEq, Repr

/-- A loaded guideline (src/index.js:362-366): `id` and `text` both come
from the `Guideline__c` column, `json` from the parsed `Rule_JSON__c`. -/
structure Rule where
  id : Option String
  text : Option String
  json : RuleJson
  deriving DecidableEq, Repr

/-- `describeCond` inside `generateExplanation` (src/index.js:391-408). -/
def describeCond (c : Clause) : String :=
  if c.field = "amount" then
    "Amount " ++ c.operator ++ " " ++ jsToLocaleString c.value
  else if c.field = "businessForm" then
    "Business form " ++ (if c.operator = "=" then "is" else "is not") ++ " " ++ jsValueToString c.value
  else if c.field = "residualType" then
    "Residual type " ++ (if c.operator = "=" then "must be" else "cannot be") ++ " " ++ jsValueToString c.value
  else if c.field = "yield" then
    "Yield " ++ c.operator ++ " " ++ toFixed2 (jsMul100 c.value) ++ "%"
  else
    c.field ++ " " ++ c.operator ++ " " ++ jsValueToString c.value

/-- `describeReq` inside `generateExplanation` (src/index.js:410-427). -/
def describeReq (r : Clause) : String :=
  if r.field = "residualType" then
    "Residual type " ++ (if r.operator = "=" then "must be" else "cannot be") ++ " " ++ jsValueToString r.value
  else if r.field = "businessForm" then
    "Business form " ++ (if r.operator = "=" then "must be" else "cannot be") ++ " " ++ jsValueToString r.value
  else if r.field = "yield" then
    "Maximum yield allowed is " ++ toFixed2 (jsMul100 r.value) ++ "%"
  else if r.field = "amount" then
    "Minimum amount requirement is $" ++ jsToLocaleString r.value
  else
    r.field ++ " " ++ r.operator ++ " " ++ jsValueToString r.value

/-- `generateExplanation(rule)` (src/index.js:388-440): the condition
descriptions joined with `" AND "`, then the requirement descriptions
joined with `" AND "`, assembled according to which of the two is
non-empty. -/
def generateExplanation (rule : Rule) : String :=
  let condText :=
    if rule.json.conditions.isEmpty then ""
    else String.intercalate " AND " (rule.json.conditions.map describeCond)
  let reqText :=
    if rule.json.requirements.isEmpty then ""
    else String.intercalate " AND " (rule.json.requirements.map describeReq)
  if condText ≠ "" ∧ reqText ≠ "" then condText ++ ". " ++ reqText ++ "."
  else if reqText ≠ "" then reqText ++ "."
  else if condText ≠ "" then condText ++ "."
  else "Deal did not meet the stated guideline."

/-- The in-memory rules cache `rulesByState`: a JavaScript object mapping
uppercased state codes to rule lists, modelled as an association list that
preserves key insertion order. -/
abbrev Store := List (String × List Rule)

/-- `rulesByState[key] || []`: the rule list stored under `key`, the empty
list when the key is absent. -/
def storeLookup (st : Store) (key : String) : List Rule :=
  match st.find? (fun e => e.1 = key) with
  | some e => e.2
  | none => []

/-- `if (!localRules[key]) localRules[key] = []; localRules[key].push(r)`:
append `r` to the list under `key`, creating the key at the end of the
object when absent. -/
def storePush (st : Store) (key : String) (r : Rule) : Store :=
  if st.any (fun e => e.1 = key) then
    st.map (fun e => if e.1 = key then (e.1, e.2 ++ [r]) else e)
  else st ++ [(key, [r])]

/-- One CSV row as the `data` handler sees it.  `State__c` and
`Guideline__c` are the raw cells (`none` when the column is missing);
`Rule_JSON__c` is the outcome of `JSON.parse` on the (quote-stripped)
`Rule_JSON__c` cell — `none` models the parse throwing, which the handler
catches, leaving `jsonData = {}` (src/index.js:344-360). -/
structure CsvRow where
  State__c : Option String
  Guideline__c : Option String
  Rule_JSON__c : Option RuleJson
  deriving DecidableEq, Repr

/-- The body of the `data` handler (src/index.js:336-370): skip the row
when the trimmed, uppercased state key is falsy; otherwise push a rule
built from the row, with `json = {}` when the embedded JSON failed to
parse. -/
def processRow (localRules : Store) (row : CsvRow) : Store :=
  match row.State__c with
  | none => localRules
  | some s =>
    let key := jsToUpper (jsTrim s)
    if key = "" then localRules
    else
      storePush localRules key
        { id := row.Guideline__c, text := row.Guideline__c,
          json := row.Rule_JSON__c.getD {} }

/-- The store accumulated by running the `data` handler over every row. -/
def buildStore (rows : List CsvRow) : Store :=
  rows.foldl processRow []

/-- A CSV stream event: a `data` row, the `end` event or an `error`
event. -/
inductive CsvEvent where
  | data (row : CsvRow)
  | endEvent
  | errorEvent
  deriving DecidableEq, Repr

/-- The state visible during a load: the process-wide shared
`rulesByState` reference, and the `localRules` object private to the
running `loadRules` call. -/
structure LoadState where
  shared : Store
  localRules : Store
  deriving DecidableEq, Repr

/-- One stream event of `loadRules` (src/index.js:334-383): a `data` event
only mutates the local object, the `end` event assigns
`rulesByState = localRules`, and the `error` event resolves without
touching either. -/
def loadStep (s : LoadState) (e : CsvEvent) : LoadState :=
  match e with
  | .data row => { s with localRules := processRow s.localRules row }
  | .endEvent => { s with shared := s.localRules }
  | .errorEvent => s

/-- Every value the shared `rulesByState` reference takes during one
`loadRules` call (src/index.js:316-384): when the rules file is missing the
shared store is assigned `{}` at once; otherwise the events run against an
empty local object, and each element of the scan is what a concurrent
reader would observe at that point. -/
def loadObservations (fileExists : Bool) (events : List CsvEvent) (old : Store) : List Store :=
  if fileExists then
    (events.scanl loadStep { shared := old, localRules := [] }).map LoadState.shared
  else [old, []]

/-- The shared store after `loadRules` settles. -/
def loadRules (fileExists : Bool) (events : List CsvEvent) (old : Store) : Store :=
  if fileExists then
    (events.foldl loadStep { shared := old, localRules := [] }).shared
  else []

/-- The parsed body of an evaluation request.  The endpoint destructures
exactly `state`, `amount`, `businessForm`, `residualType` and `yield` from
`req.body` (src/index.js:443-445); `points` stands for any further payload
attribute, which the endpoint never reads. -/
structure RequestBody where
  state : Option String
  amount : Option JSValue
  businessForm : Option JSValue
  residualType : Option JSValue
  yieldVal : Option JSValue
  points : Option JSValue
  deriving DecidableEq, Repr

/-- The deal object `{ amount, businessForm, residualType, yield: dealYield }`
handed to every `evaluateCondition` call (src/index.js:474-494): only those
four keys are present, so any other field — `points` included — is
`undefined`. -/
def dealValuesOf (body : RequestBody) : String → Option JSValue :=
  fun f =>
    if f = "amount" then body.amount
    else if f = "businessForm" then body.businessForm
    else if f = "residualType" then body.residualType
    else if f = "yield" then body.yieldVal
    else none

/-- JavaScript `!state` for the destructured `state` attribute: true when
the attribute is absent (or `null`) or the empty string. -/
def stateFalsy : Option String → Bool
  | none => true
  | some s => s = ""

/-- `conditionsMet` for one rule (src/index.js:474-481): every condition
clause evaluates true. -/
def ruleApplies (r : Rule) (deal : String → Option JSValue) : Bool :=
  r.json.conditions.all (fun c => evaluateCondition c deal)

/-- `violated` for one rule (src/index.js:486-494): some requirement clause
evaluates false. -/
def ruleViolated (r : Rule) (deal : String → Option JSValue) : Bool :=
  r.json.requirements.any (fun c => !evaluateCondition c deal)

/-- A violation record pushed by the endpoint (src/index.js:499-503). -/
structure Violation where
  ruleId : Option String
  rule : Option String
  notes : String
  deriving DecidableEq, Repr

/-- The violation record for `rule`, its notes prefixed with the evaluated
state (src/index.js:496-503). -/
def mkViolation (upperState : String) (rule : Rule) : Violation :=
  { ruleId := rule.id, rule := rule.text,
    notes := "In the state of " ++ upperState ++ ", " ++ generateExplanation rule }

/-- The `for (const rule of rules)` loop of the endpoint
(src/index.js:468-510): push a violation exactly when the rule's conditions
are met and some requirement fails. -/
def evalRulesLoop (rules : List Rule) (deal : String → Option JSValue) (upperState : String) : List Violation :=
  rules.foldl
    (fun violations rule =>
      if ruleApplies rule deal then
        if ruleViolated rule deal then violations ++ [mkViolation upperState rule]
        else violations
      else violations)
    []

/-- The endpoint's response: `res.status(400).json({ error })` or
`res.json({ state, violationCount, violations })`. -/
inductive EvalResponse where
  | clientError (status : Nat) (error : String)
  | ok (state : String) (violationCount : Nat) (violations : List Violation)
  deriving DecidableEq, Repr

/-- `app.post("/evaluate")` (src/index.js:443-520): reject a falsy `state`
with a 400 before touching the store, otherwise look up the uppercased
state's rules and run the evaluation loop. -/
def evaluateEndpoint (rulesByState : Store) (body : RequestBody) : EvalResponse :=
  if stateFalsy body.state then .clientError 400 "Missing required field: state"
  else
    let upperState := jsToUpper (body.state.getD "")
    let rules := storeLookup rulesByState upperState
    let violations := evalRulesLoop rules (dealValuesOf body) upperState
    .ok upperState violations.length violations

/-- The evaluation loop with an explicit accumulator: it appends exactly
the applicable-and-violated rules' violation records. -/
theorem evalRulesLoop_acc (deal : String → Option JSValue) (upperState : String) :
    ∀ (rules : List Rule) (acc : List Violation),
      rules.foldl
        (fun violations rule =>
          if ruleApplies rule deal then
            if ruleViolated rule deal then violations ++ [mkViolation upperState rule]
            else violations
          else violations) acc
      = acc ++ (rules.filter
          (fun r => ruleApplies r deal && ruleViolated r deal)).map (mkViolation upperState) := by
  intro rules
  induction rules with
  | nil => intro acc; simp
  | cons r t ih =>
    intro acc
    by_cases h1 : ruleApplies r deal = true <;> by_cases h2 : ruleViolated r deal = true <;>
      simp [h1, h2, ih, List.filter_cons]

/-- C1: the endpoint's violation list consists of exactly those guidelines
all of whose condition clauses evaluate true (vacuously so for an empty or
absent `conditions`) and at least one of whose requirement clauses
evaluates false (so an empty or absent `requirements` never produces a
violation); a guideline whose conditions are not all met contributes
nothing. -/
theorem c1_violations_characterized (rules : List Rule) (deal : String → Option JSValue)
    (upperState : String) :
    evalRulesLoop rules deal upperState
      = (rules.filter
          (fun r => decide ((∀ c ∈ r.json.conditions, evaluateCondition c deal = true) ∧
            (∃ c ∈ r.json.requirements, evaluateCondition c deal = false)))).map
          (mkViolation upperState) := by
  rw [evalRulesLoop, evalRulesLoop_acc]
  rw [List.nil_append]
  apply congrArg
  apply List.filter_congr
  intro r _
  have hA : ruleApplies r deal = true ↔
      (∀ c ∈ r.json.conditions, evaluateCondition c deal = true) := by
    simp [ruleApplies, List.all_eq_true]
  have hV : ruleViolated r deal = true ↔
      (∃ c ∈ r.json.requirements, evaluateCondition c deal = false) := by
    simp [ruleViolated, List.any_eq_true, Bool.not_eq_true']
  by_cases h1 : (∀ c ∈ r.json.conditions, evaluateCondition c deal = true) <;>
  by_cases h2 : (∃ c ∈ r.json.requirements, evaluateCondition c deal = false)
  · rw [hA.mpr h1, hV.mpr h2, decide_eq_true ⟨h1, h2⟩]
    rfl
  · rw [hA.mpr h1, Bool.eq_false_iff.mpr (fun hh => h2 (hV.mp hh)),
      decide_eq_false (fun hab => h2 hab.2)]
    rfl
  · rw [Bool.eq_false_iff.mpr (fun hh => h1 (hA.mp hh)),
      decide_eq_false (fun hab => h1 hab.1)]
    simp
  · rw [Bool.eq_false_iff.mpr (fun hh => h1 (hA.mp hh)),
      decide_eq_false (fun hab => h1 hab.1)]
    simp

/-- C4 counterexample: the deal value `50000` is numeric and the clause
value `"50000"` is numeric-looking, yet the `=` clause evaluates false —
strict equality compares a number and a string without numeric coercion. -/
theorem c4_counterexample :
    jsStringToNumber "50000" = some 50000 ∧
      evaluateCondition ⟨"amount", "=", .str "50000"⟩
        (dealValuesOf ⟨some "CA", some (.num 50000), none, none, none, none⟩) = false := by
  constructor <;> decide

/-- C4 amended: with a numeric deal value and a string clause value whose
normalized form is numeric-looking, the four ordering operators compare the
numeric coercions of both sides, but `=`/`!=` use strict, type-sensitive
comparison and never coerce: `=` is always false and `!=` always true
across the number/string type mismatch. -/
theorem c4_amended_ordering_coerces (f : String) (q p : ℚ) (s : String)
    (deal : String → Option JSValue)
    (h : deal f = some (.num q))
    (hp : jsStringToNumber (jsToLower (jsTrim s)) = some p) :
    evaluateCondition ⟨f, "<", .str s⟩ deal = decide (q < p) ∧
      evaluateCondition ⟨f, "<=", .str s⟩ deal = decide (q ≤ p) ∧
      evaluateCondition ⟨f, ">", .str s⟩ deal = decide (p < q) ∧
      evaluateCondition ⟨f, ">=", .str s⟩ deal = decide (p ≤ q) ∧
      evaluateCondition ⟨f, "=", .str s⟩ deal = false ∧
      evaluateCondition ⟨f, "!=", .str s⟩ deal = true := by
  refine ⟨?_, ?_, ?_, ?_, ?_, ?_⟩ <;>
    simp [evaluateCondition, h, normalizeVal, applyOp, jsLt, jsLe, jsGt, jsGe,
      jsRelational, jsToNumber, jsStrictEq, hp, ← decide_not, not_lt]

/-- Witness for C4's amended theorem: deal value `50000` against clause
value `"50000"` — `<=` and `>=` hold via numeric coercion, `=` stays
false. -/
theorem c4_amended_ordering_coerces_witness :
    ((dealValuesOf ⟨some "CA", some (.num 50000), none, none, none, none⟩) "amount"
        = some (.num 50000)) ∧
      jsStringToNumber (jsToLower (jsTrim "50000")) = some 50000 ∧
      evaluateCondition ⟨"amount", "<=", .str "50000"⟩
        (dealValuesOf ⟨some "CA", some (.num 50000), none, none, none, none⟩) = true ∧
      evaluateCondition ⟨"amount", "=", .str "50000"⟩
        (dealValuesOf ⟨some "CA", some (.num 50000), none, none, none, none⟩) = false := by
  have h := c4_amended_ordering_coerces "amount" 50000 50000 "50000"
    (dealValuesOf ⟨some "CA", some (.num 50000), none, none, none, none⟩) rfl (by decide)
  refine ⟨rfl, by decide, ?_, h.2.2.2.2.1⟩
  rw [h.2.1]
  decide

/-- C2: for every clause — whatever its operator, the six recognized ones
included — whose field is absent or null in the deal-value mapping,
`evaluateCondition` returns `false` before any comparison; the function is
the one used for conditions and requirements alike. -/
theorem c2_missing_field_false (cond : Clause) (deal : String → Option JSValue)
    (h : deal cond.field = none) :
    evaluateCondition cond deal = false := by
  simp [evaluateCondition, h]

/-- Witness for C2: a `!=` clause on `points` against the deal mapping the
endpoint builds from a request that carries no `points`-producing field. -/
theorem c2_missing_field_false_witness :
    (dealValuesOf ⟨some "CA", some (.num 50000), none, none, none, none⟩) "points" = none ∧
      evaluateCondition ⟨"points", "!=", .str "x"⟩
        (dealValuesOf ⟨some "CA", some (.num 50000), none, none, none, none⟩) = false :=
  ⟨rfl, c2_missing_field_false _ _ rfl⟩

/-- C3: an `=` clause whose value and matched deal attribute are both
strings compares the two after trimming and lower-casing both sides. -/
theorem c3_string_equality_normalized (f a b : String) (deal : String → Option JSValue)
    (h : deal f = some (.str a)) :
    evaluateCondition ⟨f, "=", .str b⟩ deal = (jsToLower (jsTrim a) == jsToLower (jsTrim b)) := by
  simp [evaluateCondition, h, normalizeVal, applyOp, jsStrictEq]

/-- Witness for C3: the clause `{field:"businessForm", operator:"=",
value:"LLC"}` evaluates true against deal value `" llc "`. -/
theorem c3_string_equality_normalized_witness :
    (dealValuesOf ⟨some "CA", none, some (.str " llc "), none, none, none⟩) "businessForm"
        = some (.str " llc ") ∧
      evaluateCondition ⟨"businessForm", "=", .str "LLC"⟩
        (dealValuesOf ⟨some "CA", none, some (.str " llc "), none, none, none⟩) = true :=
  ⟨rfl, (c3_string_equality_normalized "businessForm" " llc " "LLC" _ rfl).trans (by decide)⟩

/-- C5: a clause whose operator is none of `=`, `!=`, `<`, `<=`, `>`, `>=`
evaluates to `false` on every deal mapping; `evaluateCondition` is a total
function, so it never throws. -/
theorem c5_unknown_operator_false (cond : Clause) (deal : String → Option JSValue)
    (h : cond.operator ∉ (["=", "!=", "<", "<=", ">", ">="] : List String)) :
    evaluateCondition cond deal = false := by
  simp only [List.mem_cons, List.not_mem_nil, or_false, not_or] at h
  obtain ⟨h1, h2, h3, h4, h5, h6⟩ := h
  unfold evaluateCondition
  cases deal cond.field with
  | none => rfl
  | some v => simp [applyOp, h1, h2, h3, h4, h5, h6]

/-- Witness for C5: the unrecognized operator `"~"` evaluates to `false`
against a present numeric deal value. -/
theorem c5_unknown_operator_false_witness :
    ("~" ∉ (["=", "!=", "<", "<=", ">", ">="] : List String)) ∧
      evaluateCondition ⟨"amount", "~", .num 1⟩
        (dealValuesOf ⟨some "CA", some (.num 1), none, none, none, none⟩) = false :=
  ⟨by decide, c5_unknown_operator_false _ _ (by decide)⟩

/-- C7: a request whose `state` is absent or the empty string is answered
with HTTP 400 and the message `Missing required field: state`, whatever the
guideline store holds — no guideline lookup or clause evaluation
contributes to the response. -/
theorem c7_missing_state_rejected (store : Store) (body : RequestBody)
    (h : stateFalsy body.state = true) :
    evaluateEndpoint store body = .clientError 400 "Missing required field: state" := by
  simp [evaluateEndpoint, h]

/-- Witness for C7: a stateless request against a store that does hold a
guideline is rejected with the 400 error. -/
theorem c7_missing_state_rejected_witness :
    stateFalsy (none : Option String) = true ∧
      evaluateEndpoint [("CA", [⟨some "G1", some "G1", ⟨[], [⟨"amount", ">=", .num 50000⟩]⟩⟩])]
          ⟨none, some (.num 10), none, none, none, none⟩
        = .clientError 400 "Missing required field: state" :=
  ⟨rfl, c7_missing_state_rejected _ _ rfl⟩

/-- C10: the deal mapping handed to `evaluateCondition` holds only
`amount`, `businessForm`, `residualType` and `yield`, so a clause on
`points` always evaluates false — whatever the request body, the `points`
attribute it may carry included: a `points` condition makes its guideline
inapplicable, and a `points` requirement makes every applicable guideline
violated. -/
theorem c10_points_clause_never_satisfied (body : RequestBody) (c : Clause)
    (hf : c.field = "points") :
    evaluateCondition c (dealValuesOf body) = false ∧
      (∀ r : Rule, c ∈ r.json.conditions → ruleApplies r (dealValuesOf body) = false) ∧
      (∀ r : Rule, c ∈ r.json.requirements → ruleApplies r (dealValuesOf body) = true →
        ruleViolated r (dealValuesOf body) = true) := by
  have h0 : dealValuesOf body c.field = none := by
    rw [hf]; rfl
  have heval : evaluateCondition c (dealValuesOf body) = false := by
    simp [evaluateCondition, h0]
  refine ⟨heval, ?_, ?_⟩
  · intro r hc
    rw [Bool.eq_false_iff]
    intro hall
    have := (List.all_eq_true.mp hall) c hc
    simp [heval] at this
  · intro r hc _
    exact List.any_eq_true.mpr ⟨c, hc, by simp [heval]⟩

/-- Witness for C10: a request that does supply `points: 0.02` still fails
the clause `points <= 0.03`, so the guideline carrying it as a requirement
is violated. -/
theorem c10_points_clause_never_satisfied_witness :
    ((⟨"points", "<=", .num (mkRat 3 100)⟩ : Clause).field = "points") ∧
      evaluateCondition ⟨"points", "<=", .num (mkRat 3 100)⟩
        (dealValuesOf ⟨some "CA", none, none, none, none, some (.num (mkRat 2 100))⟩) = false ∧
      ruleApplies ⟨some "G", some "G", ⟨[], [⟨"points", "<=", .num (mkRat 3 100)⟩]⟩⟩
        (dealValuesOf ⟨some "CA", none, none, none, none, some (.num (mkRat 2 100))⟩) = true ∧
      ruleViolated ⟨some "G", some "G", ⟨[], [⟨"points", "<=", .num (mkRat 3 100)⟩]⟩⟩
        (dealValuesOf ⟨some "CA", none, none, none, none, some (.num (mkRat 2 100))⟩) = true := by
  have h := c10_points_clause_never_satisfied
    ⟨some "CA", none, none, none, none, some (.num (mkRat 2 100))⟩
    ⟨"points", "<=", .num (mkRat 3 100)⟩ rfl
  exact ⟨rfl, h.1, rfl, h.2.2 _ (by decide) rfl⟩

/-- For a guideline with exactly one requirement clause whose description
is non-empty, the synthesized explanation is the requirement description
followed by a period, preceded — when the condition text is non-empty — by
the condition descriptions and `". "`. -/
theorem generateExplanation_single_req (g : Rule) (r : Clause)
    (hreq : g.json.requirements = [r]) (hR : describeReq r ≠ "") :
    generateExplanation g = describeReq r ++ "." ∨
      generateExplanation g
        = (String.intercalate " AND " (g.json.conditions.map describeCond))
          ++ ". " ++ describeReq r ++ "." := by
  have hsingle : String.intercalate " AND " [describeReq r] = describeReq r := rfl
  unfold generateExplanation
  rw [hreq]
  simp only [List.isEmpty_cons, List.map_cons, List.map_nil, Bool.false_eq_true,
    if_false, hsingle]
  by_cases hc : (if g.json.conditions.isEmpty then ""
      else String.intercalate " AND " (g.json.conditions.map describeCond)) = ""
  · left
    rw [if_neg (fun hand => hand.1 hc), if_pos hR]
  · right
    rw [if_pos ⟨hc, hR⟩]
    cases hic : g.json.conditions.isEmpty
    · rw [if_neg (by simp [hic])] at hc ⊢
    · rw [if_pos (by simp [hic])] at hc
      exact absurd rfl hc

/-- C6: a guideline whose requirement is `{field:"yield", operator:"<=",
value:0.08}` (`0.08 = mkRat 8 100`) and whose conditions apply is reported
as a violation against a deal with yield `0.095` (`mkRat 95 1000`), and the
violation's notes contain the text `Maximum yield allowed is 8.00%`. -/
theorem c6_yield_violation_explained (g : Rule) (deal : String → Option JSValue)
    (upperState : String)
    (hy : deal "yield" = some (.num (mkRat 95 1000)))
    (hreq : g.json.requirements = [⟨"yield", "<=", .num (mkRat 8 100)⟩])
    (happ : ruleApplies g deal = true) :
    ruleViolated g deal = true ∧
      evalRulesLoop [g] deal upperState = [mkViolation upperState g] ∧
      ∃ pre post,
        (mkViolation upperState g).notes = pre ++ "Maximum yield allowed is 8.00%" ++ post := by
  have heval : evaluateCondition ⟨"yield", "<=", .num (mkRat 8 100)⟩ deal = false := by
    simp only [evaluateCondition, hy]
    decide
  have hviol : ruleViolated g deal = true := by
    rw [ruleViolated, hreq]
    simp [heval]
  refine ⟨hviol, by simp [evalRulesLoop, happ, hviol], ?_⟩
  have hD : describeReq ⟨"yield", "<=", .num (mkRat 8 100)⟩
      = "Maximum yield allowed is 8.00%" := by
    decide
  have hnotes : (mkViolation upperState g).notes
      = ("In the state of " ++ upperState ++ ", ") ++ generateExplanation g := rfl
  rcases generateExplanation_single_req g _ hreq (by rw [hD]; decide) with hexpl | hexpl
  · refine ⟨"In the state of " ++ upperState ++ ", ", ".", ?_⟩
    rw [hnotes, hexpl, hD]
    simp [String.append_assoc]
  · refine ⟨"In the state of " ++ upperState ++ ", "
      ++ (String.intercalate " AND " (g.json.conditions.map describeCond)) ++ ". ", ".", ?_⟩
    rw [hnotes, hexpl, hD]
    simp [String.append_assoc]

/-- Witness for C6: a concrete guideline with no conditions and the yield
requirement, a deal with yield `0.095`, state `"CA"`. -/
theorem c6_yield_violation_explained_witness :
    ((dealValuesOf ⟨some "CA", none, none, none, some (.num (mkRat 95 1000)), none⟩) "yield"
        = some (.num (mkRat 95 1000))) ∧
      (⟨some "Y1", some "Y1", ⟨[], [⟨"yield", "<=", .num (mkRat 8 100)⟩]⟩⟩ : Rule).json.requirements
        = [⟨"yield", "<=", .num (mkRat 8 100)⟩] ∧
      ruleApplies ⟨some "Y1", some "Y1", ⟨[], [⟨"yield", "<=", .num (mkRat 8 100)⟩]⟩⟩
        (dealValuesOf ⟨some "CA", none, none, none, some (.num (mkRat 95 1000)), none⟩) = true ∧
      ruleViolated ⟨some "Y1", some "Y1", ⟨[], [⟨"yield", "<=", .num (mkRat 8 100)⟩]⟩⟩
        (dealValuesOf ⟨some "CA", none, none, none, some (.num (mkRat 95 1000)), none⟩) = true ∧
      ∃ pre post,
        (mkViolation "CA" ⟨some "Y1", some "Y1", ⟨[], [⟨"yield", "<=", .num (mkRat 8 100)⟩]⟩⟩).notes
          = pre ++ "Maximum yield allowed is 8.00%" ++ post := by
  have h := c6_yield_violation_explained
    ⟨some "Y1", some "Y1", ⟨[], [⟨"yield", "<=", .num (mkRat 8 100)⟩]⟩⟩
    (dealValuesOf ⟨some "CA", none, none, none, some (.num (mkRat 95 1000)), none⟩)
    "CA" rfl rfl rfl
  exact ⟨rfl, rfl, rfl, h.1, h.2.2⟩

/-- `data` events leave the shared `rulesByState` reference untouched. -/
theorem foldl_data_shared (rows : List CsvRow) :
    ∀ st : LoadState, ((rows.map CsvEvent.data).foldl loadStep st).shared = st.shared := by
  induction rows with
  | nil => intro st; rfl
  | cons r t ih => intro st; rw [List.map_cons, List.foldl_cons]; exact ih _

/-- `data` events accumulate exactly `processRow` on the local object. -/
theorem foldl_data_localRules (rows : List CsvRow) :
    ∀ st : LoadState,
      ((rows.map CsvEvent.data).foldl loadStep st).localRules
        = rows.foldl processRow st.localRules := by
  induction rows with
  | nil => intro st; rfl
  | cons r t ih => intro st; rw [List.map_cons, List.foldl_cons, List.foldl_cons]; exact ih _

/-- Along a stream of `data` events followed by one terminal event, every
intermediate value of the shared reference is either its initial value or
its final value. -/
theorem scanl_shared_mem (term : CsvEvent) :
    ∀ (rows : List CsvRow) (st : LoadState) (x : LoadState),
      x ∈ (rows.map CsvEvent.data ++ [term]).scanl loadStep st →
      x.shared = st.shared ∨
        x.shared = ((rows.map CsvEvent.data ++ [term]).foldl loadStep st).shared := by
  intro rows
  induction rows with
  | nil =>
    intro st x hx
    rw [List.map_nil, List.nil_append, List.scanl_cons, List.scanl_nil] at hx
    rcases List.mem_append.mp hx with h | h
    · left
      rw [List.mem_singleton.mp h]
    · right
      rw [List.mem_singleton.mp h, List.map_nil, List.nil_append, List.foldl_cons,
        List.foldl_nil]
  | cons r t ih =>
    intro st x hx
    rw [List.map_cons, List.cons_append, List.scanl_cons] at hx
    rcases List.mem_append.mp hx with h | h
    · left
      rw [List.mem_singleton.mp h]
    · rcases ih (loadStep st (CsvEvent.data r)) x h with h2 | h2
      · left
        rw [h2]
        rfl
      · right
        rw [h2, List.map_cons, List.cons_append, List.foldl_cons]

/-- C8: during a reload — a stream of `data` rows closed by the `end` or
`error` event — every value a reader can observe in the shared
`rulesByState` reference is either the complete pre-reload store or the
complete post-reload store: the rows accumulate in the local object and are
swapped into the shared reference only by the final `end` event.  When the
rules file is missing the post-reload store is empty, and when the stream
ends normally it is exactly the store built from all rows. -/
theorem c8_reload_atomic (fileExists : Bool) (rows : List CsvRow) (term : CsvEvent)
    (old : Store)
    (_hterm : term = CsvEvent.endEvent ∨ term = CsvEvent.errorEvent)
    (s : Store)
    (hs : s ∈ loadObservations fileExists (rows.map CsvEvent.data ++ [term]) old) :
    (s = old ∨ s = loadRules fileExists (rows.map CsvEvent.data ++ [term]) old) ∧
      (fileExists = false →
        loadRules fileExists (rows.map CsvEvent.data ++ [term]) old = []) ∧
      (fileExists = true → term = CsvEvent.endEvent →
        loadRules fileExists (rows.map CsvEvent.data ++ [term]) old = buildStore rows) := by
  refine ⟨?_, ?_, ?_⟩
  · cases fileExists
    · rw [loadObservations] at hs
      rw [if_neg (by simp)] at hs
      rw [loadRules, if_neg (by simp)]
      rcases List.mem_cons.mp hs with h | h
      · left; exact h
      · right
        rw [List.mem_singleton.mp h]
    · rw [loadObservations, if_pos rfl] at hs
      rw [loadRules, if_pos rfl]
      rcases List.mem_map.mp hs with ⟨x, hx, hshared⟩
      rcases scanl_shared_mem term rows ⟨old, []⟩ x hx with h | h
      · left
        rw [← hshared, h]
      · right
        rw [← hshared, h]
  · intro hfe
    rw [loadRules, hfe, if_neg (by simp)]
  · intro hfe hend
    rw [loadRules, hfe, if_pos rfl, hend, List.foldl_append, List.foldl_cons, List.foldl_nil]
    show (loadStep ((rows.map CsvEvent.data).foldl loadStep ⟨old, []⟩) CsvEvent.endEvent).shared
      = buildStore rows
    rw [loadStep]
    exact foldl_data_localRules rows ⟨old, []⟩

/-- Witness for C8: one concrete row loaded over a non-empty previous
store; the pre-reload store is among the observations, and the post-reload
store is the one built from the row. -/
theorem c8_reload_atomic_witness :
    ((CsvEvent.endEvent = CsvEvent.endEvent ∨ CsvEvent.endEvent = CsvEvent.errorEvent) ∧
      [("CA", [(⟨some "G1", some "G1", ⟨[], []⟩⟩ : Rule)])] ∈
        loadObservations true
          ([(⟨some " tx ", some "G2", some ⟨[], []⟩⟩ : CsvRow)].map CsvEvent.data
            ++ [CsvEvent.endEvent])
          [("CA", [⟨some "G1", some "G1", ⟨[], []⟩⟩])]) ∧
      ([("CA", [(⟨some "G1", some "G1", ⟨[], []⟩⟩ : Rule)])]
          = [("CA", [(⟨some "G1", some "G1", ⟨[], []⟩⟩ : Rule)])] ∨
        [("CA", [(⟨some "G1", some "G1", ⟨[], []⟩⟩ : Rule)])]
          = loadRules true
              ([(⟨some " tx ", some "G2", some ⟨[], []⟩⟩ : CsvRow)].map CsvEvent.data
                ++ [CsvEvent.endEvent])
              [("CA", [⟨some "G1", some "G1", ⟨[], []⟩⟩])]) ∧
      loadRules true
          ([(⟨some " tx ", some "G2", some ⟨[], []⟩⟩ : CsvRow)].map CsvEvent.data
            ++ [CsvEvent.endEvent])
          [("CA", [⟨some "G1", some "G1", ⟨[], []⟩⟩])]
        = buildStore [⟨some " tx ", some "G2", some ⟨[], []⟩⟩] := by
  have h := c8_reload_atomic true [⟨some " tx ", some "G2", some ⟨[], []⟩⟩]
    CsvEvent.endEvent [("CA", [⟨some "G1", some "G1", ⟨[], []⟩⟩])]
    (Or.inl rfl) [("CA", [⟨some "G1", some "G1", ⟨[], []⟩⟩])] (by decide)
  exact ⟨⟨Or.inl rfl, by decide⟩, h.1, h.2.2 rfl rfl⟩

/-- Lookup steps through the head entry of the association list. -/
theorem storeLookup_cons (a : String × List Rule) (t : Store) (k : String) :
    storeLookup (a :: t) k = if a.1 = k then a.2 else storeLookup t k := by
  by_cases h : a.1 = k
  · rw [if_pos h]
    unfold storeLookup
    rw [List.find?_cons_of_pos _ (by simp [h])]
  · rw [if_neg h]
    unfold storeLookup
    rw [List.find?_cons_of_neg _ (by simp [h])]

/-- Pushing under a key other than the head's key steps past the head. -/
theorem storePush_cons_ne (a : String × List Rule) (t : Store) (k : String) (r : Rule)
    (h : ¬a.1 = k) : storePush (a :: t) k r = a :: storePush t k r := by
  by_cases ht : t.any (fun e => e.1 = k) = true <;>
    simp [storePush, List.any_cons, h, ht]

/-- Pushing appends the rule to the list stored under the key. -/
theorem storeLookup_storePush_self (st : Store) (k : String) (r : Rule) :
    storeLookup (storePush st k r) k = storeLookup st k ++ [r] := by
  induction st with
  | nil => simp [storePush, storeLookup]
  | cons a t ih =>
    by_cases ha : a.1 = k
    · have hany : (a :: t).any (fun e => e.1 = k) = true := by
        simp [List.any_cons, ha]
      rw [storePush, if_pos hany, List.map_cons, if_pos ha]
      rw [storeLookup_cons (a.1, a.2 ++ [r]) _ k, if_pos ha,
        storeLookup_cons a t k, if_pos ha]
    · rw [storePush_cons_ne a t k r ha, storeLookup_cons a _ k, if_neg ha,
        storeLookup_cons a t k, if_neg ha]
      exact ih

/-- Updating the entries of one key leaves lookups of another key alone. -/
theorem storeLookup_map_ne (t : Store) (k k2 : String) (r : Rule) (h : ¬k2 = k) :
    storeLookup (t.map (fun e => if e.1 = k2 then (e.1, e.2 ++ [r]) else e)) k
      = storeLookup t k := by
  induction t with
  | nil => rfl
  | cons b t2 ih =>
    rw [List.map_cons]
    by_cases hb : b.1 = k2
    · rw [if_pos hb, storeLookup_cons (b.1, b.2 ++ [r]) _ k, if_neg (by rw [hb]; exact h),
        storeLookup_cons b t2 k, if_neg (by rw [hb]; exact h)]
      exact ih
    · rw [if_neg hb, storeLookup_cons b _ k, storeLookup_cons b t2 k]
      by_cases hbk : b.1 = k
      · rw [if_pos hbk, if_pos hbk]
      · rw [if_neg hbk, if_neg hbk]
        exact ih

/-- Pushing under one key leaves lookups of another key alone. -/
theorem storeLookup_storePush_ne (st : Store) (k k2 : String) (r : Rule)
    (h : ¬k2 = k) : storeLookup (storePush st k2 r) k = storeLookup st k := by
  induction st with
  | nil =>
    rw [storePush]
    simp only [List.any_nil, Bool.false_eq_true, if_false, List.nil_append]
    rw [storeLookup_cons (k2, [r]) [] k, if_neg h]
  | cons a t ih =>
    by_cases ha : a.1 = k2
    · have hany : (a :: t).any (fun e => e.1 = k2) = true := by
        simp [List.any_cons, ha]
      rw [storePush, if_pos hany, List.map_cons, if_pos ha]
      rw [storeLookup_cons (a.1, a.2 ++ [r]) _ k, if_neg (by rw [ha]; exact h),
        storeLookup_cons a t k, if_neg (by rw [ha]; exact h)]
      exact storeLookup_map_ne t k k2 r h
    · rw [storePush_cons_ne a t k2 r ha, storeLookup_cons a _ k, storeLookup_cons a t k]
      by_cases hak : a.1 = k
      · rw [if_pos hak, if_pos hak]
      · rw [if_neg hak, if_neg hak]
        exact ih

/-- Processing a further row never removes a rule already in the store. -/
theorem mem_storeLookup_processRow (st : Store) (row : CsvRow) (k : String) (r : Rule)
    (h : r ∈ storeLookup st k) : r ∈ storeLookup (processRow st row) k := by
  cases hrow : row.State__c with
  | none =>
    simp only [processRow, hrow]
    exact h
  | some s =>
    simp only [processRow, hrow]
    by_cases hempty : jsToUpper (jsTrim s) = ""
    · rw [if_pos hempty]
      exact h
    · rw [if_neg hempty]
      by_cases hkk : jsToUpper (jsTrim s) = k
      · rw [hkk, storeLookup_storePush_self]
        exact List.mem_append_left _ h
      · rw [storeLookup_storePush_ne _ _ _ _ hkk]
        exact h

/-- Loading further rows never removes a rule already in the store. -/
theorem mem_storeLookup_foldl (rows : List CsvRow) :
    ∀ (st : Store) (k : String) (r : Rule),
      r ∈ storeLookup st k → r ∈ storeLookup (rows.foldl processRow st) k := by
  induction rows with
  | nil => intro st k r h; exact h
  | cons row t ih =>
    intro st k r h
    rw [List.foldl_cons]
    exact ih _ k r (mem_storeLookup_processRow st row k r h)

/-- C9 counterexample: a single row for state `CA` whose embedded rule JSON
fails to parse is not dropped — the loaded guideline set for `CA` holds one
entry (with an empty rule structure), not none. -/
theorem c9_counterexample :
    storeLookup (buildStore [⟨some "CA", some "G7", none⟩]) "CA"
        = [⟨some "G7", some "G7", ⟨[], []⟩⟩] ∧
      storeLookup (buildStore [⟨some "CA", some "G7", none⟩]) "CA" ≠ [] := by
  constructor <;> decide

/-- C9 amended: a guideline row whose embedded rule JSON fails to parse is
retained in the store with an empty rule structure (`jsonData = {}`), so it
applies vacuously and can never be violated; the surrounding rows keep
loading, and the loader — a total function — lets no exception escape. -/
theorem c9_malformed_row_retained_inert (rowsBefore rowsAfter : List CsvRow)
    (s : String) (g : Option String)
    (hkey : ¬jsToUpper (jsTrim s) = "") :
    (⟨g, g, ⟨[], []⟩⟩ : Rule) ∈
        storeLookup (buildStore (rowsBefore ++ ⟨some s, g, none⟩ :: rowsAfter))
          (jsToUpper (jsTrim s)) ∧
      (∀ deal : String → Option JSValue,
        ruleApplies ⟨g, g, ⟨[], []⟩⟩ deal = true ∧
          ruleViolated ⟨g, g, ⟨[], []⟩⟩ deal = false) := by
  refine ⟨?_, fun deal => ⟨rfl, rfl⟩⟩
  rw [buildStore, List.foldl_append, List.foldl_cons]
  apply mem_storeLookup_foldl
  show (⟨g, g, ⟨[], []⟩⟩ : Rule) ∈
    storeLookup (processRow (rowsBefore.foldl processRow []) ⟨some s, g, none⟩)
      (jsToUpper (jsTrim s))
  simp only [processRow]
  rw [if_neg hkey, storeLookup_storePush_self]
  exact List.mem_append_right _ (List.mem_singleton.mpr rfl)

/-- Witness for C9's amended theorem: the malformed `" ca "` row is kept
under key `CA` alongside a following well-formed row, and its entry never
yields a violation. -/
theorem c9_malformed_row_retained_inert_witness :
    (¬jsToUpper (jsTrim " ca ") = "") ∧
      (⟨some "G7", some "G7", ⟨[], []⟩⟩ : Rule) ∈
        storeLookup
          (buildStore ([] ++ ⟨some " ca ", some "G7", none⟩
            :: [⟨some "CA", some "G8", some ⟨[], []⟩⟩]))
          (jsToUpper (jsTrim " ca ")) ∧
      ruleViolated ⟨some "G7", some "G7", ⟨[], []⟩⟩
        (dealValuesOf ⟨some "CA", none, none, none, none, none⟩) = false := by
  have h := c9_malformed_row_retained_inert [] [⟨some "CA", some "G8", some ⟨[], []⟩⟩]
    " ca " (some "G7") (by decide)
  exact ⟨by decide, h.1, (h.2 _).2⟩

end PricingEngine
